import Mathlib

/-!
Shallow embedding of the revenue-distribution core of `src/indel.tsx`
(the "Nexus" revenue distribution system).

Modelling conventions:
* JavaScript floating-point numbers are modelled as exact rationals (`ℚ`);
  view counters are natural numbers.
* The browser `localStorage`-backed `DataManager` is modelled as an explicit
  `State` record threaded through the operations; each React handler that
  mutates storage becomes a function `... → State → State` (or returns an
  error alongside).
* Nondeterministic identifiers (`Date.now()`, `Math.random()`) are modelled
  as parameters, or (in the CSV importer) as deterministic per-row-index
  fresh identifiers; no claim depends on identifier values.
* ISO timestamp strings for withdrawals are modelled as natural numbers
  (`Date.now()` instants), so that "request time" order is statable.
* JavaScript string primitives (`trim`, `split`, `toLowerCase`, `includes`,
  `startsWith`, `parseFloat`) are re-implemented structurally on `List Char`
  with JS semantics, so that they evaluate inside the kernel.
-/

/-! ### JavaScript string primitives -/

/-- Whitespace recognised by `String.prototype.trim` (the characters that
occur in this code base). -/
def isWhitespaceChar (c : Char) : Bool :=
  c = ' ' || c = '\t' || c = '\n' || c = '\r'

/-- Auxiliary splitter: JS `String.prototype.split` with a one-character
separator, accumulator-style over the character list. -/
def splitCharAux (sep : Char) : List Char → List Char → List (List Char)
  | [], acc => [acc.reverse]
  | c :: cs, acc =>
    if c = sep then acc.reverse :: splitCharAux sep cs []
    else splitCharAux sep cs (c :: acc)

/-- JS `s.split(sep)` for a single-character separator. -/
def jsSplit (sep : Char) (s : String) : List String :=
  (splitCharAux sep s.data []).map (fun cs => ⟨cs⟩)

/-- JS `s.trim()`. -/
def jsTrim (s : String) : String :=
  ⟨((s.data.dropWhile isWhitespaceChar).reverse.dropWhile isWhitespaceChar).reverse⟩

/-- ASCII lower-casing of one character, as JS `toLowerCase` acts on the
ASCII inputs of this code base. -/
def lowerChar (c : Char) : Char :=
  if 'A' ≤ c ∧ c ≤ 'Z' then Char.ofNat (c.toNat + 32) else c

/-- JS `s.toLowerCase()` (ASCII). -/
def jsToLower (s : String) : String := ⟨s.data.map lowerChar⟩

/-- Boolean prefix test on character lists. -/
def startsWithList : List Char → List Char → Bool
  | [], _ => true
  | _ :: _, [] => false
  | p :: ps, c :: cs => p = c && startsWithList ps cs

/-- Boolean substring test on character lists. -/
def containsList (pat : List Char) : List Char → Bool
  | [] => pat.isEmpty
  | c :: cs => startsWithList pat (c :: cs) || containsList pat cs

/-- JS `s.includes(pat)`. -/
def jsIncludes (s pat : String) : Bool := containsList pat.data s.data

/-- JS `s.startsWith(pat)`. -/
def jsStartsWith (s pat : String) : Bool := startsWithList pat.data s.data

/-- Value of a list of decimal digit characters. -/
def digitsToNat (cs : List Char) : ℕ :=
  cs.foldl (fun acc c => acc * 10 + (c.toNat - 48)) 0

/-- JS `parseFloat`, modelled for the non-negative decimal numerals that are
well-formed CSV ratio fields; no claim depends on its value. -/
def parseRatio (str : String) : ℚ :=
  match jsSplit '.' (jsTrim str) with
  | [w] => (digitsToNat (w.data.filter Char.isDigit) : ℚ)
  | w :: f :: _ =>
    (digitsToNat (w.data.filter Char.isDigit) : ℚ) +
      (digitsToNat (f.data.filter Char.isDigit) : ℚ) /
        ((10 : ℚ) ^ (f.data.filter Char.isDigit).length)
  | [] => 0

/-! ### Data model (`interface` declarations of `src/indel.tsx`) -/

/-- `role: 'admin' | 'user'`. -/
inductive Role
  | admin
  | user
deriving DecidableEq

/-- `interface User` (the spec's Tenant). -/
structure User where
  id : String
  username : String
  password : String
  role : Role
  ratio : ℚ
  createdAt : String
deriving DecidableEq

/-- `platform: 'youtube' | 'tiktok'`. -/
inductive Platform
  | youtube
  | tiktok
deriving DecidableEq

/-- `interface Channel`. -/
structure Channel where
  id : String
  userId : String
  platform : Platform
  identifier : String
  name : String
deriving DecidableEq

/-- `status: 'success' | 'failed'` of a distribution (the spec's outcome). -/
inductive DistStatus
  | success
  | failed
deriving DecidableEq

/-- `interface Distribution` (the spec's DistributionEvent); `songId` and
`distributedAt` play no role in the claims but are kept for fidelity. -/
structure Distribution where
  id : String
  songId : String
  userId : String
  distributedAt : String
  status : DistStatus
  views : ℕ
deriving DecidableEq

/-- `status: 'pending' | 'completed'` of a withdrawal. -/
inductive WithdrawalStatus
  | pending
  | completed
deriving DecidableEq

/-- `interface Withdrawal`; `date` is the `Date.now()` instant of the request
(the code stores it as an ISO string). -/
structure Withdrawal where
  id : String
  userId : String
  amount : ℚ
  date : ℕ
  status : WithdrawalStatus
deriving DecidableEq

/-- `interface AppSettings` (the spec's RateConfig). -/
structure AppSettings where
  globalPricePer1k : ℚ
  platformFee : ℚ
deriving DecidableEq

/-- The whole `DataManager` storage: users, channels, distributions,
withdrawals and the singleton settings (songs are irrelevant to the claims). -/
structure State where
  users : List User
  channels : List Channel
  distributions : List Distribution
  withdrawals : List Withdrawal
  settings : AppSettings
deriving DecidableEq

/-! ### Attribution engine (revenue computations of the views) -/

/-- `db.getDistributions().filter(d => d.userId === user.id)`. -/
def userDistributions (uid : String) (s : State) : List Distribution :=
  s.distributions.filter (fun d => d.userId == uid)

/-- `dists.reduce((acc, d) => acc + d.views, 0)`. -/
def totalViews (uid : String) (s : State) : ℕ :=
  (userDistributions uid s).foldl (fun acc d => acc + d.views) 0

/-- `(views / 1000) * settings.globalPricePer1k` (AdminRevenue). -/
def grossRevenue (uid : String) (s : State) : ℚ :=
  ((totalViews uid s : ℚ) / 1000) * s.settings.globalPricePer1k

/-- `gross * (u.ratio / 100)`; SubDashboard computes the same value as
`(totalViews / 1000) * settings.globalPricePer1k * (user.ratio / 100)`. -/
def netRevenue (u : User) (s : State) : ℚ :=
  grossRevenue u.id s * (u.ratio / 100)

/-- Per-distribution revenue
`(d.views / 1000) * settings.globalPricePer1k * (user.ratio / 100)`
(SubDashboard "Recent Performance" and SubMusic rows). -/
def perDistRevenue (d : Distribution) (u : User) (settings : AppSettings) : ℚ :=
  ((d.views : ℚ) / 1000) * settings.globalPricePer1k * (u.ratio / 100)

/-- `db.getWithdrawals().filter(w => w.userId === user.id)` followed by
`reduce((acc, w) => acc + w.amount, 0)`. -/
def withdrawnAmount (uid : String) (s : State) : ℚ :=
  (s.withdrawals.filter (fun w => w.userId == uid)).foldl (fun acc w => acc + w.amount) 0

/-- `const balance = Math.max(0, revenue - withdrawn)` (SubDashboard). -/
def availableBalance (u : User) (s : State) : ℚ :=
  max 0 (netRevenue u s - withdrawnAmount u.id s)

/-- Aggregation following the spec's words, for comparison with
`grossRevenue`: only distributions with outcome `success` contribute their
view counts ("Must exclude distributions whose outcome = failed"). -/
def grossRevenueSuccessOnly (uid : String) (s : State) : ℚ :=
  (((s.distributions.filter
      (fun d => d.userId == uid && d.status == DistStatus.success)).foldl
        (fun acc d => acc + d.views) 0 : ℕ) : ℚ) / 1000 * s.settings.globalPricePer1k

/-! ### Withdrawal ledger -/

/-- The failure of `handleWithdraw`: `alert('Minimum withdrawal is $10')`. -/
inductive WithdrawError
  | insufficientBalance
deriving DecidableEq

/-- `handleWithdraw` (SubDashboard): recompute the balance, reject below the
minimum of 10, otherwise append a pending withdrawal of the entire balance.
`wid` and `now` stand for the `Date.now()`-derived id and timestamp. The
returned state is unchanged on failure. -/
def handleWithdraw (u : User) (wid : String) (now : ℕ) (s : State) :
    State × Option WithdrawError :=
  let balance := availableBalance u s
  if balance < 10 then (s, some .insufficientBalance)
  else
    ({ s with withdrawals :=
        s.withdrawals ++ [{ id := wid, userId := u.id, amount := balance,
                            date := now, status := .pending }] }, none)

/-- `db.getWithdrawals().filter(w => w.userId === user.id)` (SubEarnings),
rendered in stored order. -/
def listWithdrawals (uid : String) (s : State) : List Withdrawal :=
  s.withdrawals.filter (fun w => w.userId == uid)

/-! ### Settings (AdminSettings) -/

/-- `save` of AdminSettings: `db.setSettings(settings)`. -/
def saveSettings (newSettings : AppSettings) (s : State) : State :=
  { s with settings := newSettings }

/-! ### Revenue export (AdminRevenue.exportExcel) -/

/-- One row of the exported report; `toFixed` presentation formatting is
omitted and the exact values are kept. -/
structure ExportRow where
  username : String
  ratio : ℚ
  views : ℕ
  gross : ℚ
  fee : ℚ
  net : ℚ
deriving DecidableEq

/-- The rows of `exportExcel`: one per non-admin user; the `fee` column is
`settings.platformFee` echoed verbatim. -/
def exportRows (s : State) : List ExportRow :=
  (s.users.filter (fun u => !(u.role == Role.admin))).map (fun u =>
    let views := totalViews u.id s
    let gross := ((views : ℚ) / 1000) * s.settings.globalPricePer1k
    let net := gross * (u.ratio / 100)
    { username := u.username, ratio := u.ratio, views := views,
      gross := gross, fee := s.settings.platformFee, net := net })

/-! ### Batch CSV importer (AdminUsers.processCSV) -/

/-- The thrown `Line N invalid format` of `processCSV`, the spec's
`MalformedRow(lineNumber)`. -/
inductive ImportError
  | malformedRow (lineNumber : ℕ)
deriving DecidableEq

/-- Deterministic stand-in for the `u_${Date.now()}_${random}` id of the user
created from row index `i`. -/
def mkUserId (i : ℕ) : String := "u_import_" ++ toString i

/-- Deterministic stand-in for the `c_${Date.now()}_${random}` id of the
channel created from row index `i`. -/
def mkChannelId (i : ℕ) : String := "c_import_" ++ toString i

/-- `currentUsers.find(u => u.username === username) ||
newUsers.find(u => u.username === username)`. -/
def resolveUser (username : String) (currentUsers newUsers : List User) : Option User :=
  match currentUsers.find? (fun u => u.username == username) with
  | some u => some u
  | none => newUsers.find? (fun u => u.username == username)

/-- The user record built for an unmatched row (`role: 'user'`,
`ratio: parseFloat(ratio)`); the nondeterministic `createdAt` timestamp is
irrelevant to every claim and modelled as `""`. -/
def mkNewUser (i : ℕ) (username password ratio : String) : User :=
  { id := mkUserId i, username := username, password := password,
    role := .user, ratio := parseRatio ratio, createdAt := "" }

/-- The channel record built for a row:
`platform: cId.startsWith('UC') ? 'youtube' : 'tiktok'`. -/
def mkChannel (i : ℕ) (userId cName cId : String) : Channel :=
  { id := mkChannelId i, userId := userId,
    platform := if jsStartsWith cId "UC" then .youtube else .tiktok,
    identifier := cId, name := cName }

/-- The `for` loop of `processCSV` over the remaining lines, carrying the
absolute row index `i` and the accumulated `newUsers` / `newChannels`;
`currentUsers` is the snapshot `[...db.getUsers()]` taken before the loop. -/
def processRows : List String → ℕ → List User → List User → List Channel →
    Except ImportError (List User × List Channel)
  | [], _, _, newUsers, newChannels => .ok (newUsers, newChannels)
  | l :: rest, i, currentUsers, newUsers, newChannels =>
    let line := jsTrim l
    if line == "" then processRows rest (i + 1) currentUsers newUsers newChannels
    else
      match (jsSplit ',' line).map jsTrim with
      | username :: password :: ratio :: cName :: cId :: _ =>
        match resolveUser username currentUsers newUsers with
        | some u =>
          processRows rest (i + 1) currentUsers newUsers
            (newChannels ++ [mkChannel i u.id cName cId])
        | none =>
          let u := mkNewUser i username password ratio
          processRows rest (i + 1) currentUsers (newUsers ++ [u])
            (newChannels ++ [mkChannel i u.id cName cId])
      | _ => .error (.malformedRow (i + 1))

/-- Header detection: `lines[0].toLowerCase().includes('username')`. -/
def headerSkipped (csvContent : String) : Bool :=
  jsIncludes (jsToLower ((jsSplit '\n' (jsTrim csvContent)).headD "")) "username"

/-- `const startIdx = lines[0].toLowerCase().includes('username') ? 1 : 0`. -/
def startIndex (csvContent : String) : ℕ :=
  if headerSkipped csvContent then 1 else 0

/-- Decidable description of a row the loop rejects: non-blank after
trimming, with fewer than 5 comma-separated fields. -/
def rowMalformed (l : String) : Bool :=
  !(jsTrim l == "") && decide ((jsSplit ',' (jsTrim l)).length < 5)

/-- `processCSV`: split into lines, skip a detected header, run the loop and
commit `db.setUsers` / `db.setChannels` only afterwards; on success the
reported counts `newUsers.length` and `newChannels.length` are returned
alongside the new state. -/
def processCSV (csvContent : String) (s : State) :
    Except ImportError (State × ℕ × ℕ) :=
  let lines := jsSplit '\n' (jsTrim csvContent)
  match processRows (lines.drop (startIndex csvContent)) (startIndex csvContent)
      s.users [] [] with
  | .error e => .error e
  | .ok (newUsers, newChannels) =>
    .ok ({ s with
            users := s.users ++ newUsers,
            channels := s.channels ++ newChannels },
         newUsers.length, newChannels.length)

/-! ### Derived state transformers used in statements -/

/-- A state differing from `s` only in `platformFee`. -/
def setPlatformFee (fee : ℚ) (s : State) : State :=
  { s with settings := { s.settings with platformFee := fee } }

/-- A state differing from `s` only in the outcome fields of its
distributions. -/
def setStatuses (f : Distribution → DistStatus) (s : State) : State :=
  { s with distributions := s.distributions.map (fun d => { d with status := f d }) }

/-! ### Concrete fixtures for witnesses and counterexamples -/

/-- `DEFAULT_SETTINGS` of the source: price 0.03 per 1000 views, fee 0. -/
def defaultSettings : AppSettings := { globalPricePer1k := 3 / 100, platformFee := 0 }

/-- The `u_test1` default user (ratio 75). -/
def test1User : User :=
  { id := "u_test1", username := "test1", password := "123456",
    role := .user, ratio := 75, createdAt := "" }

/-- A state matching the spec's worked example: `test1` has a single
successful distribution with one million views and no withdrawals, so its
net revenue is 22.5. -/
def exampleState : State :=
  { users := [{ id := "u_admin", username := "admin", password := "123456",
                role := .admin, ratio := 0, createdAt := "" }, test1User],
    channels := [],
    distributions := [{ id := "d1", songId := "s1", userId := "u_test1",
                        distributedAt := "", status := .success, views := 1000000 }],
    withdrawals := [],
    settings := defaultSettings }

/-- A state whose only distribution for `test1` has outcome failed, with
2000 views at a price of 30 per 1000 views. -/
def failedDistState : State :=
  { users := [test1User],
    channels := [],
    distributions := [{ id := "d1", songId := "s1", userId := "u_test1",
                        distributedAt := "", status := .failed, views := 2000 }],
    withdrawals := [],
    settings := { globalPricePer1k := 30, platformFee := 0 } }

/-- A state with two withdrawals for `test1`, requested at instants 1 and 2
and stored in request order. -/
def twoWithdrawalsState : State :=
  { users := [test1User],
    channels := [],
    distributions := [],
    withdrawals :=
      [{ id := "w1", userId := "u_test1", amount := 20, date := 1, status := .pending },
       { id := "w2", userId := "u_test1", amount := 20, date := 2, status := .pending }],
    settings := defaultSettings }

/-- An empty registry state (price and fee both 0). -/
def emptyState : State :=
  { users := [], channels := [], distributions := [], withdrawals := [],
    settings := { globalPricePer1k := 0, platformFee := 0 } }

/-- Two CSV data rows naming the same (new) username `alice`. -/
def twoRowPayload : String :=
  "alice,pw1,50,ChanA,UCabc\nalice,pw2,60,ChanB,tikki"

/-- A payload whose first row is a data row (its first cell is
`USERNAME2`, which does not case-insensitively equal `username`) yet
contains the header label as a substring. -/
def trickyHeaderPayload : String :=
  "USERNAME2,pw,50,ChanA,UCabc\nbob,pw,60,ChanB,tikki"

/-- A payload whose second data row has only 4 comma-separated fields. -/
def malformedPayload : String :=
  "alice,pw1,50,ChanA,UCabc\nbob,pw,60,ChanB"

/-- Lower-cased first cell of the first row of a payload, the quantity the
spec says header detection examines. -/
def firstCellLower (csvContent : String) : String :=
  jsToLower (jsTrim
    ((jsSplit ',' ((jsSplit '\n' (jsTrim csvContent)).headD "")).headD ""))

/-! ## Helper lemmas -/

/-- Folding an addition over a filtered list equals the starting value plus
the sum of the mapped values. -/
theorem foldl_add_eq_add_sum {α : Type} (f : α → ℚ) :
    ∀ (l : List α) (a : ℚ), l.foldl (fun acc x => acc + f x) a = a + (l.map f).sum := by
  intro l
  induction l with
  | nil => intro a; simp
  | cons x rest ih => intro a; simp [List.foldl_cons, ih, add_assoc]

/-- Appending one withdrawal of the given user adds its amount to the
withdrawn total. -/
theorem withdrawnAmount_append_one (uid : String) (s : State) (w : Withdrawal)
    (h : w.userId = uid) :
    withdrawnAmount uid { s with withdrawals := s.withdrawals ++ [w] }
      = withdrawnAmount uid s + w.amount := by
  simp only [withdrawnAmount, List.filter_append, List.foldl_append]
  simp [List.filter_cons, h, foldl_add_eq_add_sum]

/-- View aggregation is blind to the outcome fields: remapping every
distribution's status does not change the filtered fold of views. -/
theorem views_fold_status_blind (uid : String) (f : Distribution → DistStatus) :
    ∀ (l : List Distribution) (a : ℕ),
      ((l.map (fun d => { d with status := f d })).filter
          (fun d => d.userId == uid)).foldl (fun acc d => acc + d.views) a
        = (l.filter (fun d => d.userId == uid)).foldl (fun acc d => acc + d.views) a := by
  intro l
  induction l with
  | nil => intro a; rfl
  | cons d rest ih =>
    intro a
    by_cases hd : d.userId = uid
    · simp [List.filter_cons, hd, ih]
    · simp [List.filter_cons, hd, ih]

/-- Evaluation of the worked example of the spec: `test1` (ratio 75) with one
million views at 0.03 per 1000 views and no withdrawals has balance 22.5. -/
theorem exampleState_balance : availableBalance test1User exampleState = 45 / 2 := by
  have hv : totalViews test1User.id exampleState = 1000000 := by decide
  have hw : withdrawnAmount test1User.id exampleState = 0 := rfl
  unfold availableBalance netRevenue grossRevenue
  rw [hv, hw]
  rw [show exampleState.settings.globalPricePer1k = 3 / 100 from rfl,
    show test1User.ratio = 75 from rfl]
  rw [max_eq_right (by norm_num)]
  norm_num

/-! ## C1 — aggregation and the outcome field -/

/-- C1, counterexample: in `failedDistState` the only distribution of
`test1` has outcome failed with 2000 views at price 30, yet the code's
aggregation counts it (gross revenue 60), while the spec's success-only
aggregation yields 0 — so failed distributions are not excluded. -/
theorem failed_distribution_counted :
    grossRevenue "u_test1" failedDistState = 60
  ∧ grossRevenueSuccessOnly "u_test1" failedDistState = 0
  ∧ grossRevenue "u_test1" failedDistState
      ≠ grossRevenueSuccessOnly "u_test1" failedDistState := by
  have h1 : grossRevenue "u_test1" failedDistState = 60 := by
    have hv : totalViews "u_test1" failedDistState = 2000 := by decide
    unfold grossRevenue
    rw [hv, show failedDistState.settings.globalPricePer1k = 30 from rfl]
    norm_num
  have h2 : grossRevenueSuccessOnly "u_test1" failedDistState = 0 := by
    have hz : (failedDistState.distributions.filter
        (fun d => d.userId == "u_test1" && d.status == DistStatus.success)).foldl
          (fun acc d => acc + d.views) 0 = 0 := by decide
    unfold grossRevenueSuccessOnly
    rw [hz]
    norm_num
  exact ⟨h1, h2, by rw [h1, h2]; norm_num⟩

/-- C1, amended: the attribution computation never consults the outcome
field — remapping every distribution's outcome arbitrarily (in particular
marking everything failed) leaves gross revenue, net revenue and the
available balance of every tenant unchanged, so failed distributions
contribute their views exactly like successful ones. -/
theorem attribution_ignores_outcome (s : State) (u : User)
    (f : Distribution → DistStatus) :
    grossRevenue u.id (setStatuses f s) = grossRevenue u.id s
  ∧ netRevenue u (setStatuses f s) = netRevenue u s
  ∧ availableBalance u (setStatuses f s) = availableBalance u s := by
  have hv : totalViews u.id (setStatuses f s) = totalViews u.id s := by
    simpa [totalViews, userDistributions, setStatuses] using
      views_fold_status_blind u.id f s.distributions 0
  have hg : grossRevenue u.id (setStatuses f s) = grossRevenue u.id s := by
    unfold grossRevenue
    rw [hv]
    rfl
  have hn : netRevenue u (setStatuses f s) = netRevenue u s := by
    unfold netRevenue
    rw [hg]
  have hw : withdrawnAmount u.id (setStatuses f s) = withdrawnAmount u.id s := rfl
  refine ⟨hg, hn, ?_⟩
  unfold availableBalance
  rw [hn, hw]

/-! ## C2 — requestWithdrawal contract -/

/-- Case analysis of `handleWithdraw`, shared by the withdrawal claims. -/
theorem handleWithdraw_cases (u : User) (wid : String) (now : ℕ) (s : State) :
    ((handleWithdraw u wid now s).2 = some WithdrawError.insufficientBalance
        ↔ availableBalance u s < 10)
  ∧ (availableBalance u s < 10 → (handleWithdraw u wid now s).1 = s)
  ∧ (10 ≤ availableBalance u s →
      (handleWithdraw u wid now s).1 =
        { s with withdrawals := s.withdrawals ++
            [{ id := wid, userId := u.id, amount := availableBalance u s,
               date := now, status := .pending }] }) := by
  unfold handleWithdraw
  by_cases h : availableBalance u s < 10
  · simp [h]
  · simp [h, not_lt.mp h]

/-- C2: `handleWithdraw` fails with the insufficient-balance error exactly
when the balance computed at the call is below 10; on failure the state is
untouched, and otherwise the single appended withdrawal is pending and its
amount is the entire currently available balance. -/
theorem requestWithdrawal_spec (u : User) (wid : String) (now : ℕ) (s : State) :
    ((handleWithdraw u wid now s).2 = some WithdrawError.insufficientBalance
        ↔ availableBalance u s < 10)
  ∧ (availableBalance u s < 10 → (handleWithdraw u wid now s).1 = s)
  ∧ (10 ≤ availableBalance u s →
      (handleWithdraw u wid now s).1 =
        { s with withdrawals := s.withdrawals ++
            [{ id := wid, userId := u.id, amount := availableBalance u s,
               date := now, status := .pending }] }) :=
  handleWithdraw_cases u wid now s

/-- C2, witness: in the spec's worked example the balance 22.5 clears the
minimum, and the appended withdrawal carries the whole balance. -/
theorem requestWithdrawal_spec_witness :
    (10 : ℚ) ≤ availableBalance test1User exampleState
  ∧ (handleWithdraw test1User "w1" 5 exampleState).1 =
      { exampleState with withdrawals := exampleState.withdrawals ++
          [{ id := "w1", userId := test1User.id,
             amount := availableBalance test1User exampleState, date := 5,
             status := .pending }] } :=
  ⟨by rw [exampleState_balance]; norm_num,
   (requestWithdrawal_spec test1User "w1" 5 exampleState).2.2
     (by rw [exampleState_balance]; norm_num)⟩

/-! ## C3 — no double spend -/

/-- Immediately after a successful whole-balance withdrawal the recomputed
balance is exactly 0. -/
theorem balance_zero_after_withdraw (u : User) (s : State) (w : Withdrawal)
    (h : 10 ≤ availableBalance u s) (hwu : w.userId = u.id)
    (hwa : w.amount = availableBalance u s) :
    availableBalance u ({ s with withdrawals := s.withdrawals ++ [w] }) = 0 := by
  have hnet : 10 ≤ netRevenue u s - withdrawnAmount u.id s := by
    rcases le_max_iff.mp h with h0 | h1
    · linarith
    · exact h1
  have hbal : availableBalance u s = netRevenue u s - withdrawnAmount u.id s :=
    max_eq_right (by linarith)
  have hn : netRevenue u ({ s with withdrawals := s.withdrawals ++ [w] })
      = netRevenue u s := rfl
  unfold availableBalance
  rw [hn, withdrawnAmount_append_one _ _ _ hwu, hwa]
  rw [show netRevenue u s - (withdrawnAmount u.id s + availableBalance u s) = 0 by
    rw [hbal]; ring]
  exact max_self 0

/-- C3: with a balance clearing the minimum, the first call succeeds and an
immediate second call (same views, same rate config) fails with the
insufficient-balance error and leaves the state exactly as after the first
call. -/
theorem withdraw_no_double_spend (u : User) (wid1 wid2 : String) (t1 t2 : ℕ)
    (s : State) (h : 10 ≤ availableBalance u s) :
    (handleWithdraw u wid1 t1 s).2 = none
  ∧ (handleWithdraw u wid2 t2 (handleWithdraw u wid1 t1 s).1).2
      = some WithdrawError.insufficientBalance
  ∧ (handleWithdraw u wid2 t2 (handleWithdraw u wid1 t1 s).1).1
      = (handleWithdraw u wid1 t1 s).1 := by
  have hs1 : (handleWithdraw u wid1 t1 s).1 =
      { s with withdrawals := s.withdrawals ++
        [{ id := wid1, userId := u.id, amount := availableBalance u s,
           date := t1, status := .pending }] } :=
    (handleWithdraw_cases u wid1 t1 s).2.2 h
  have hz : availableBalance u (handleWithdraw u wid1 t1 s).1 = 0 := by
    rw [hs1]
    exact balance_zero_after_withdraw u s _ h rfl rfl
  have hlt : availableBalance u (handleWithdraw u wid1 t1 s).1 < 10 := by
    rw [hz]; norm_num
  refine ⟨?_, ?_, ?_⟩
  · unfold handleWithdraw
    simp [not_lt.mpr h]
  · have := ((handleWithdraw_cases u wid2 t2 (handleWithdraw u wid1 t1 s).1).1).mpr hlt
    exact this
  · exact (handleWithdraw_cases u wid2 t2 (handleWithdraw u wid1 t1 s).1).2.1 hlt

/-- C3, witness: concretely at the worked example (balance 22.5): first call
succeeds, second call fails, state unchanged by the second call. -/
theorem withdraw_no_double_spend_witness :
    (10 : ℚ) ≤ availableBalance test1User exampleState
  ∧ ((handleWithdraw test1User "w1" 5 exampleState).2 = none
  ∧ (handleWithdraw test1User "w2" 6
        (handleWithdraw test1User "w1" 5 exampleState).1).2
      = some WithdrawError.insufficientBalance
  ∧ (handleWithdraw test1User "w2" 6
        (handleWithdraw test1User "w1" 5 exampleState).1).1
      = (handleWithdraw test1User "w1" 5 exampleState).1) :=
  ⟨by rw [exampleState_balance]; norm_num,
   withdraw_no_double_spend test1User "w1" "w2" 5 6 exampleState
     (by rw [exampleState_balance]; norm_num)⟩

/-! ## C4 — balances are never negative -/

/-- C4: in every state whatsoever (hence in every reachable one, including
immediately after any withdrawal) the available balance is non-negative: it
is defined as a maximum with 0. -/
theorem availableBalance_nonneg (u : User) (s : State) :
    0 ≤ availableBalance u s :=
  le_max_left 0 _

/-! ## C8 — rate configuration is stored without validation -/

/-- C8, counterexample: saving a configuration with a negative price (out of
the range the claim says is validated) does not fail — it overwrites the
stored configuration, which is therefore not left unchanged. -/
theorem setConfig_accepts_invalid :
    (({ globalPricePer1k := -1, platformFee := 0 } : AppSettings).globalPricePer1k < 0)
  ∧ (saveSettings { globalPricePer1k := -1, platformFee := 0 } emptyState).settings
      ≠ emptyState.settings := by
  refine ⟨by norm_num, ?_⟩
  simp only [saveSettings, emptyState, ne_eq, AppSettings.mk.injEq, not_and]
  intro hcontra
  norm_num at hcontra

/-- C8, amended: the save handler performs no validation at all — any new
configuration, including one violating the claimed ranges, is stored
verbatim, and nothing else in the state changes. -/
theorem setConfig_no_validation (cfg : AppSettings) (s : State)
    (_h : cfg.globalPricePer1k < 0 ∨ cfg.platformFee < 0 ∨ 100 < cfg.platformFee) :
    (saveSettings cfg s).settings = cfg
  ∧ (saveSettings cfg s).users = s.users
  ∧ (saveSettings cfg s).channels = s.channels
  ∧ (saveSettings cfg s).distributions = s.distributions
  ∧ (saveSettings cfg s).withdrawals = s.withdrawals :=
  ⟨rfl, rfl, rfl, rfl, rfl⟩

/-- C8, witness: the amended statement applied to the concrete invalid
configuration with price −1. -/
theorem setConfig_no_validation_witness :
    (({ globalPricePer1k := -1, platformFee := 0 } : AppSettings).globalPricePer1k < 0)
  ∧ (saveSettings { globalPricePer1k := -1, platformFee := 0 } emptyState).settings
      = { globalPricePer1k := -1, platformFee := 0 } :=
  ⟨by norm_num,
   (setConfig_no_validation { globalPricePer1k := -1, platformFee := 0 } emptyState
     (Or.inl (by norm_num))).1⟩

/-! ## C9 — withdrawal listing order -/

/-- C9, counterexample: with two withdrawals requested at instants 1 and 2,
the listing produced for the tenant has dates `[1, 2]` — oldest first — and
is not ordered most recent first. -/
theorem listWithdrawals_not_most_recent_first :
    ((listWithdrawals "u_test1" twoWithdrawalsState).map Withdrawal.date = [1, 2])
  ∧ ¬ (listWithdrawals "u_test1" twoWithdrawalsState).Pairwise
        (fun a b => b.date ≤ a.date) := by
  constructor
  · decide
  · decide

/-- C9, amended: the listing preserves the ledger's stored (append) order;
since withdrawals are appended as they are requested, whenever the ledger is
chronologically ordered the produced sequence is ordered oldest first
(ascending by request time). -/
theorem listWithdrawals_preserves_ledger_order (uid : String) (s : State)
    (h : s.withdrawals.Pairwise (fun a b => a.date ≤ b.date)) :
    (listWithdrawals uid s).Pairwise (fun a b => a.date ≤ b.date) := by
  unfold listWithdrawals
  exact List.Pairwise.filter (fun w => w.userId == uid) h

/-- C9, witness: the amended statement evaluated on the concrete two
withdrawal ledger. -/
theorem listWithdrawals_order_witness :
    twoWithdrawalsState.withdrawals.Pairwise (fun a b => a.date ≤ b.date)
  ∧ (listWithdrawals "u_test1" twoWithdrawalsState).Pairwise
      (fun a b => a.date ≤ b.date) :=
  ⟨by decide,
   listWithdrawals_preserves_ledger_order "u_test1" twoWithdrawalsState (by decide)⟩

/-! ## C10 — the platform fee never enters a revenue computation -/

/-- C10: changing only `platformFee` changes no derived revenue value — not
gross revenue, net revenue, per-distribution revenue nor any tenant's
available balance; in the exported report it changes exactly the echoed
`fee` column of each row. -/
theorem platformFee_noninterference (s : State) (fee : ℚ) (u : User)
    (d : Distribution) :
    grossRevenue u.id (setPlatformFee fee s) = grossRevenue u.id s
  ∧ netRevenue u (setPlatformFee fee s) = netRevenue u s
  ∧ availableBalance u (setPlatformFee fee s) = availableBalance u s
  ∧ perDistRevenue d u (setPlatformFee fee s).settings = perDistRevenue d u s.settings
  ∧ exportRows (setPlatformFee fee s)
      = (exportRows s).map (fun r => { r with fee := fee }) := by
  refine ⟨rfl, rfl, rfl, rfl, ?_⟩
  simp only [exportRows, setPlatformFee, List.map_map]
  rfl

/-! ## Step lemmas for the import loop -/

/-- The loop on an exhausted line list commits the accumulators. -/
theorem processRows_nil (i : ℕ) (cu nu : List User) (nc : List Channel) :
    processRows [] i cu nu nc = .ok (nu, nc) := rfl

/-- A line that is blank after trimming is skipped. -/
theorem processRows_blank (l : String) (rest : List String) (i : ℕ)
    (cu nu : List User) (nc : List Channel) (hl : (jsTrim l == "") = true) :
    processRows (l :: rest) i cu nu nc = processRows rest (i + 1) cu nu nc := by
  simp only [processRows]
  rw [hl]
  simp

/-- A non-blank line with at least five comma-separated fields resolves its
user and extends the accumulators. -/
theorem processRows_parsed (l : String) (rest : List String) (i : ℕ)
    (cu nu : List User) (nc : List Channel)
    (username password ratio cName cId : String) (extra : List String)
    (hl : (jsTrim l == "") = false)
    (hp : (jsSplit ',' (jsTrim l)).map jsTrim
        = username :: password :: ratio :: cName :: cId :: extra) :
    processRows (l :: rest) i cu nu nc =
      match resolveUser username cu nu with
      | some u =>
        processRows rest (i + 1) cu nu (nc ++ [mkChannel i u.id cName cId])
      | none =>
        processRows rest (i + 1) cu (nu ++ [mkNewUser i username password ratio])
          (nc ++ [mkChannel i (mkNewUser i username password ratio).id cName cId]) := by
  simp only [processRows]
  rw [hl, hp]
  simp

/-- A non-blank line with fewer than five comma-separated fields aborts the
loop with the malformed-row error carrying its 1-based line number. -/
theorem processRows_malformed (l : String) (rest : List String) (i : ℕ)
    (cu nu : List User) (nc : List Channel)
    (hl : (jsTrim l == "") = false)
    (hp : (jsSplit ',' (jsTrim l)).length < 5) :
    processRows (l :: rest) i cu nu nc
      = .error (.malformedRow (i + 1)) := by
  simp only [processRows]
  rw [hl]
  simp only [Bool.false_eq_true, if_false]
  rcases hps : (jsSplit ',' (jsTrim l)).map jsTrim with
    _ | ⟨a, _ | ⟨b, _ | ⟨c, _ | ⟨d, _ | ⟨e, tl⟩⟩⟩⟩⟩
  · rfl
  · rfl
  · rfl
  · rfl
  · rfl
  · exfalso
    have hlen := congrArg List.length hps
    simp [List.length_map] at hlen
    omega

/-- A list of length at least five starts with five explicit elements. -/
theorem exists_five_cons {α : Type} :
    ∀ (l : List α), 5 ≤ l.length → ∃ a b c d e tl, l = a :: b :: c :: d :: e :: tl
  | a :: b :: c :: d :: e :: tl, _ => ⟨a, b, c, d, e, tl, rfl⟩
  | [], h => by simp at h
  | [a], h => by simp at h
  | [a, b], h => by simp at h
  | [a, b, c], h => by simp at h
  | [a, b, c, d], h => by simp at h

/-- Specialisation of `processRows_parsed` when the row's username resolves
to an existing user (persisted or earlier in the batch). -/
theorem processRows_parsed_found (l : String) (rest : List String) (i : ℕ)
    (cu nu : List User) (nc : List Channel)
    (username password ratio cName cId : String) (extra : List String) (u : User)
    (hl : (jsTrim l == "") = false)
    (hp : (jsSplit ',' (jsTrim l)).map jsTrim
        = username :: password :: ratio :: cName :: cId :: extra)
    (hr : resolveUser username cu nu = some u) :
    processRows (l :: rest) i cu nu nc
      = processRows rest (i + 1) cu nu (nc ++ [mkChannel i u.id cName cId]) := by
  rw [processRows_parsed l rest i cu nu nc username password ratio cName cId extra hl hp,
    hr]

/-- Specialisation of `processRows_parsed` when the row's username is new:
a user is created and pushed. -/
theorem processRows_parsed_new (l : String) (rest : List String) (i : ℕ)
    (cu nu : List User) (nc : List Channel)
    (username password ratio cName cId : String) (extra : List String)
    (hl : (jsTrim l == "") = false)
    (hp : (jsSplit ',' (jsTrim l)).map jsTrim
        = username :: password :: ratio :: cName :: cId :: extra)
    (hr : resolveUser username cu nu = none) :
    processRows (l :: rest) i cu nu nc
      = processRows rest (i + 1) cu (nu ++ [mkNewUser i username password ratio])
          (nc ++ [mkChannel i (mkNewUser i username password ratio).id cName cId]) := by
  rw [processRows_parsed l rest i cu nu nc username password ratio cName cId extra hl hp,
    hr]

/-- The loop numbers error lines after its starting index: an error raised
while scanning from index `i` carries a 1-based line number above `i`. -/
theorem processRows_error_lineNumber (rows : List String) :
    ∀ (i : ℕ) (cu nu : List User) (nc : List Channel) (n : ℕ),
      processRows rows i cu nu nc = .error (.malformedRow n) → i + 1 ≤ n := by
  induction rows with
  | nil =>
    intro i cu nu nc n h
    rw [processRows_nil] at h
    exact absurd h (by simp)
  | cons l rest ih =>
    intro i cu nu nc n h
    by_cases hl : (jsTrim l == "") = true
    · rw [processRows_blank l rest i cu nu nc hl] at h
      have := ih (i + 1) cu nu nc n h
      omega
    · rw [Bool.not_eq_true] at hl
      by_cases hp : (jsSplit ',' (jsTrim l)).length < 5
      · rw [processRows_malformed l rest i cu nu nc hl hp] at h
        have : n = i + 1 := by
          simpa [ImportError.malformedRow.injEq] using h.symm
        omega
      · push_neg at hp
        have hlong : 5 ≤ ((jsSplit ',' (jsTrim l)).map jsTrim).length := by
          simpa using hp
        obtain ⟨a, b, c, d, e, tl, hps⟩ := exists_five_cons _ hlong
        rcases hr : resolveUser a cu nu with _ | u
        · rw [processRows_parsed_new l rest i cu nu nc a b c d e tl hl hps hr] at h
          have := ih (i + 1) cu (nu ++ [mkNewUser i a b c])
            (nc ++ [mkChannel i (mkNewUser i a b c).id d e]) n h
          omega
        · rw [processRows_parsed_found l rest i cu nu nc a b c d e tl u hl hps hr] at h
          have := ih (i + 1) cu nu (nc ++ [mkChannel i u.id d e]) n h
          omega

/-- If some row in the remaining lines is malformed, the loop aborts with a
malformed-row error for the first such row, whatever the accumulators are. -/
theorem processRows_error_of_any (rows : List String) :
    ∀ (i : ℕ) (cu nu : List User) (nc : List Channel),
      rows.any rowMalformed = true →
      ∃ j, j < rows.length ∧ rowMalformed (rows.getD j "") = true ∧
        processRows rows i cu nu nc = .error (.malformedRow (i + j + 1)) := by
  induction rows with
  | nil => intro i cu nu nc h; simp at h
  | cons l rest ih =>
    intro i cu nu nc h
    by_cases hl : (jsTrim l == "") = true
    · have hml : rowMalformed l = false := by
        simp [rowMalformed, hl]
      have hrest : rest.any rowMalformed = true := by
        simpa [List.any_cons, hml] using h
      obtain ⟨j, hj, hmal, heq⟩ := ih (i + 1) cu nu nc hrest
      refine ⟨j + 1, by simpa using hj, by simpa using hmal, ?_⟩
      rw [processRows_blank l rest i cu nu nc hl, heq]
      congr 2
      omega
    · rw [Bool.not_eq_true] at hl
      by_cases hp : (jsSplit ',' (jsTrim l)).length < 5
      · refine ⟨0, by simp, ?_, ?_⟩
        · simp [rowMalformed, hl, hp]
        · rw [processRows_malformed l rest i cu nu nc hl hp]
      · have hml : rowMalformed l = false := by
          simp [rowMalformed, hl, hp]
        have hrest : rest.any rowMalformed = true := by
          simpa [List.any_cons, hml] using h
        push_neg at hp
        have hlong : 5 ≤ ((jsSplit ',' (jsTrim l)).map jsTrim).length := by
          simpa using hp
        obtain ⟨a, b, c, d, e, tl, hps⟩ := exists_five_cons _ hlong
        rcases hr : resolveUser a cu nu with _ | u
        · obtain ⟨j, hj, hmal, heq⟩ := ih (i + 1) cu (nu ++ [mkNewUser i a b c])
            (nc ++ [mkChannel i (mkNewUser i a b c).id d e]) hrest
          refine ⟨j + 1, by simpa using hj, by simpa using hmal, ?_⟩
          rw [processRows_parsed_new l rest i cu nu nc a b c d e tl hl hps hr, heq]
          congr 2
          omega
        · obtain ⟨j, hj, hmal, heq⟩ := ih (i + 1) cu nu
            (nc ++ [mkChannel i u.id d e]) hrest
          refine ⟨j + 1, by simpa using hj, by simpa using hmal, ?_⟩
          rw [processRows_parsed_found l rest i cu nu nc a b c d e tl u hl hps hr, heq]
          congr 2
          omega

/-- Indexing with a default into a dropped list. -/
theorem getD_drop (l : List String) :
    ∀ (k j : ℕ), (l.drop k).getD j "" = l.getD (k + j) "" := by
  induction l with
  | nil => intro k j; simp
  | cons x rest ih =>
    intro k j
    cases k with
    | zero => simp
    | succ k =>
      rw [List.drop_succ_cons, ih k j,
        show k + 1 + j = (k + j) + 1 from by omega, List.getD_cons_succ]

/-! ## C5 — batch import atomicity on malformed rows -/

/-- C5: whenever some data row among the scanned lines is malformed (blank
lines do not count), the import produces a malformed-row error whose payload
is the 1-based line number of a malformed row, and no new state is ever
committed — the registries are exactly as before. -/
theorem import_atomic_on_malformed (csvContent : String) (s : State)
    (h : ((jsSplit '\n' (jsTrim csvContent)).drop (startIndex csvContent)).any
        rowMalformed = true) :
    ∃ n, 1 ≤ n
      ∧ rowMalformed ((jsSplit '\n' (jsTrim csvContent)).getD (n - 1) "") = true
      ∧ processCSV csvContent s = .error (.malformedRow n)
      ∧ ∀ r, processCSV csvContent s ≠ .ok r := by
  obtain ⟨j, _hj, hmal, heq⟩ :=
    processRows_error_of_any _ (startIndex csvContent) s.users [] [] h
  have hcsv : processCSV csvContent s
      = .error (.malformedRow (startIndex csvContent + j + 1)) := by
    simp only [processCSV]
    rw [heq]
  refine ⟨startIndex csvContent + j + 1, by omega, ?_, hcsv, ?_⟩
  · rw [show startIndex csvContent + j + 1 - 1 = startIndex csvContent + j from by omega,
      ← getD_drop]
    exact hmal
  · intro r hr
    rw [hcsv] at hr
    simp at hr

/-- C5, witness: the concrete payload whose second data row has only four
fields aborts with a malformed-row error and commits nothing. -/
theorem import_atomic_on_malformed_witness :
    ∃ n, 1 ≤ n
      ∧ rowMalformed ((jsSplit '\n' (jsTrim malformedPayload)).getD (n - 1) "") = true
      ∧ processCSV malformedPayload emptyState = .error (.malformedRow n)
      ∧ ∀ r, processCSV malformedPayload emptyState ≠ .ok r :=
  import_atomic_on_malformed malformedPayload emptyState (by decide)

/-! ## C6 — tenant resolution and merge within a batch -/

/-- C6: for the two-row payload naming the same `alice`, resolution checks
the persisted registry first and then the users created earlier in the same
batch. If `alice` is unknown, the first row creates her and the second row
reuses that in-batch record: exactly one new tenant, two new channels, and
the reported counts are (1, 2). If `alice` is already persisted as `u₀`,
both channels attach to `u₀` and the reported counts are (0, 2). -/
theorem import_merges_same_new_name (s : State) :
    ((∀ u ∈ s.users, u.username ≠ "alice") →
      processCSV twoRowPayload s =
        .ok ({ s with
                users := s.users ++ [mkNewUser 0 "alice" "pw1" "50"],
                channels := s.channels ++
                  [mkChannel 0 (mkNewUser 0 "alice" "pw1" "50").id "ChanA" "UCabc",
                   mkChannel 1 (mkNewUser 0 "alice" "pw1" "50").id "ChanB" "tikki"] },
             1, 2))
  ∧ (∀ u₀, s.users.find? (fun u => u.username == "alice") = some u₀ →
      processCSV twoRowPayload s =
        .ok ({ s with
                channels := s.channels ++
                  [mkChannel 0 u₀.id "ChanA" "UCabc",
                   mkChannel 1 u₀.id "ChanB" "tikki"] },
             0, 2)) := by
  constructor
  · intro h
    have hf : s.users.find? (fun u => u.username == "alice") = none := by
      rw [List.find?_eq_none]
      intro u hu
      simpa using h u hu
    have hr0 : resolveUser "alice" s.users [] = none := by
      unfold resolveUser
      rw [hf]
      rfl
    have hr1 : resolveUser "alice" s.users [mkNewUser 0 "alice" "pw1" "50"]
        = some (mkNewUser 0 "alice" "pw1" "50") := by
      unfold resolveUser
      rw [hf]
      decide
    simp only [processCSV]
    rw [show jsSplit '\n' (jsTrim twoRowPayload)
        = ["alice,pw1,50,ChanA,UCabc", "alice,pw2,60,ChanB,tikki"] from by decide,
      show startIndex twoRowPayload = 0 from by decide, List.drop_zero]
    rw [processRows_parsed_new "alice,pw1,50,ChanA,UCabc"
      ["alice,pw2,60,ChanB,tikki"] 0 s.users [] []
      "alice" "pw1" "50" "ChanA" "UCabc" [] (by decide) (by decide) hr0]
    simp only [List.nil_append, Nat.zero_add]
    rw [processRows_parsed_found "alice,pw2,60,ChanB,tikki" [] 1 s.users
      [mkNewUser 0 "alice" "pw1" "50"]
      [mkChannel 0 (mkNewUser 0 "alice" "pw1" "50").id "ChanA" "UCabc"]
      "alice" "pw2" "60" "ChanB" "tikki" [] (mkNewUser 0 "alice" "pw1" "50")
      (by decide) (by decide) hr1]
    rw [processRows_nil]
    rfl
  · intro u₀ hf
    have hr0 : resolveUser "alice" s.users [] = some u₀ := by
      unfold resolveUser
      rw [hf]
    simp only [processCSV]
    rw [show jsSplit '\n' (jsTrim twoRowPayload)
        = ["alice,pw1,50,ChanA,UCabc", "alice,pw2,60,ChanB,tikki"] from by decide,
      show startIndex twoRowPayload = 0 from by decide, List.drop_zero]
    rw [processRows_parsed_found "alice,pw1,50,ChanA,UCabc"
      ["alice,pw2,60,ChanB,tikki"] 0 s.users [] []
      "alice" "pw1" "50" "ChanA" "UCabc" [] u₀ (by decide) (by decide) hr0]
    simp only [List.nil_append, Nat.zero_add]
    rw [processRows_parsed_found "alice,pw2,60,ChanB,tikki" [] 1 s.users []
      [mkChannel 0 u₀.id "ChanA" "UCabc"]
      "alice" "pw2" "60" "ChanB" "tikki" [] u₀ (by decide) (by decide) hr0]
    rw [processRows_nil]
    simp

/-- C6, witness: starting from the empty registry (no `alice` persisted),
the two-row payload creates exactly one tenant and two channels. -/
theorem import_merges_same_new_name_witness :
    (∀ u ∈ emptyState.users, u.username ≠ "alice")
  ∧ processCSV twoRowPayload emptyState =
      .ok ({ emptyState with
              users := emptyState.users ++ [mkNewUser 0 "alice" "pw1" "50"],
              channels := emptyState.channels ++
                [mkChannel 0 (mkNewUser 0 "alice" "pw1" "50").id "ChanA" "UCabc",
                 mkChannel 1 (mkNewUser 0 "alice" "pw1" "50").id "ChanB" "tikki"] },
           1, 2) :=
  ⟨by decide, (import_merges_same_new_name emptyState).1 (by decide)⟩

/-! ## C7 — header detection -/

/-- C7, counterexample: the first row of `trickyHeaderPayload` has first
cell `USERNAME2`, which does not case-insensitively match the expected
column label `username`, yet the import skips it as a header (it merely
contains the label as a substring), so only `bob` from the second row is
imported and no tenant is created from the first row. -/
theorem header_detection_not_first_cell :
    firstCellLower trickyHeaderPayload ≠ "username"
  ∧ headerSkipped trickyHeaderPayload = true
  ∧ processCSV trickyHeaderPayload emptyState =
      .ok ({ emptyState with
              users := [mkNewUser 1 "bob" "pw" "60"],
              channels := [mkChannel 1 (mkNewUser 1 "bob" "pw" "60").id
                "ChanB" "tikki"] },
           1, 1) := by
  refine ⟨by decide, by decide, by rfl⟩

/-- C7, amended: the first row is skipped if and only if the whole row,
lower-cased, contains the substring `username` — not if and only if its
first cell matches the label. Behaviourally: when no header is detected, a
malformed first row aborts the import with line number 1 (it was processed
as data); when a header is detected, no run can report an error at line 1. -/
theorem header_skip_by_substring (csvContent : String) (s : State) :
    (headerSkipped csvContent = false →
      rowMalformed ((jsSplit '\n' (jsTrim csvContent)).headD "") = true →
      processCSV csvContent s = .error (.malformedRow 1))
  ∧ (headerSkipped csvContent = true →
      processCSV csvContent s ≠ .error (.malformedRow 1)) := by
  constructor
  · intro hh hm
    have hsi : startIndex csvContent = 0 := by
      unfold startIndex
      rw [hh]
      rfl
    rcases hlines : jsSplit '\n' (jsTrim csvContent) with _ | ⟨l0, rest⟩
    · rw [hlines] at hm
      simp [rowMalformed] at hm
      exact absurd rfl hm.1
    · rw [hlines] at hm
      simp only [List.headD_cons] at hm
      have hl : (jsTrim l0 == "") = false := by
        rcases hb : (jsTrim l0 == "") with _ | _
        · rfl
        · simp [rowMalformed, hb] at hm
      have hp : (jsSplit ',' (jsTrim l0)).length < 5 := by
        simpa [rowMalformed, hl] using hm
      simp only [processCSV]
      rw [hsi, hlines, List.drop_zero]
      rw [processRows_malformed l0 rest 0 s.users [] [] hl hp]
  · intro hh hr
    have hsi : startIndex csvContent = 1 := by
      unfold startIndex
      rw [hh]
      rfl
    simp only [processCSV] at hr
    rw [hsi] at hr
    rcases hscr : processRows ((jsSplit '\n' (jsTrim csvContent)).drop 1) 1
        s.users [] [] with e | pair
    · rw [hscr] at hr
      rcases e with ⟨n⟩
      have hn : n = 1 := by simpa using hr
      have := processRows_error_lineNumber _ 1 s.users [] [] n hscr
      omega
    · rw [hscr] at hr
      rcases pair with ⟨nu, nc⟩
      simp at hr

/-- C7, amended, witness: a concrete payload without the header label whose
first row has two fields is rejected at line 1 — the first row was treated
as data. -/
theorem header_skip_by_substring_witness :
    headerSkipped "a,b\nc,d,e,f,g" = false
  ∧ rowMalformed ((jsSplit '\n' (jsTrim "a,b\nc,d,e,f,g")).headD "") = true
  ∧ processCSV "a,b\nc,d,e,f,g" emptyState = .error (.malformedRow 1) :=
  ⟨by decide, by decide,
   (header_skip_by_substring "a,b\nc,d,e,f,g" emptyState).1 (by decide) (by decide)⟩
